import Mathlib

/-!
Verification of the simple-logger library (leveled logging with pluggable
formatters). The Go source is shallowly embedded: pure formatting code
becomes Lean functions, the stateful Logger methods become explicit
state-passing functions, and effects (writes to the output sink, process
exit) are collected in an explicit result structure. Machine integers are
modelled as Int (no overflow is relevant: levels are small constants).

Caller capture: the library reads the call stack with a fixed skip count
(the Go runtime primitive takes skip = number of stack frames to ascend,
with 0 identifying the function that invokes the primitive). We model the
stack explicitly as a list of frames, head = innermost. Every embedded
function receives the stack of its caller (head = the frame of the caller
at the call instruction) and pushes its own frame before reading the stack
or calling further. Compiler-generated method-value wrappers are elided by
the Go runtime from caller lookups, so binding a method as a function value
contributes no frame; ordinary function literals (closures) do contribute
one. The repository's logger source file name is not preserved in the
snapshot; it is modelled by the constant v1File / v2File below - only its
distinctness from application file names matters.
-/

/-- A stack frame: source file and line of the active call instruction. -/
abbrev Frame := String × Nat

/-- The Go caller primitive: skip frames to ascend, 0 = the function
invoking it. Returns none when the stack is shallower than skip. -/
def runtimeCaller (stack : List Frame) (skip : Nat) : Option Frame :=
  stack.get? skip

/-- Source file of the Formatter-based logger implementation. -/
def v1File : String := "logger.go"

/-- Source file of the callback-based logger implementation. -/
def v2File : String := "logger.go"

/-! ## Log levels (shared by both implementation variants) -/

/-- LogLevel is an int in the source (type LogLevel int). -/
abbrev LogLevel := Int

def DEBUG : LogLevel := 0
def INFO : LogLevel := 1
def WARN : LogLevel := 2
def ERROR : LogLevel := 3
def FATAL : LogLevel := 4

/-- logLevelToString converts a LogLevel to its string representation;
unrecognized values map to UNKNOWN (the switch default). -/
def logLevelToString (level : LogLevel) : String :=
  if level = DEBUG then ("DEBUG")
  else if level = INFO then ("INFO")
  else if level = WARN then ("WARN")
  else if level = ERROR then ("ERROR")
  else if level = FATAL then ("FATAL")
  else ("UNKNOWN")

/-! ## Character and string helpers (ASCII-faithful models of the Go
standard library functions the logger uses) -/

/-- ASCII upper-casing of one character, as strings.ToUpper acts on the
ASCII range (the five level names are ASCII; see parseLogLevel). -/
def goToUpperChar (c : Char) : Char :=
  if 97 ≤ c.toNat ∧ c.toNat ≤ 122 then Char.ofNat (c.toNat - 32) else c

/-- strings.ToUpper restricted to the ASCII range. -/
def goToUpper (s : String) : String :=
  ⟨s.data.map goToUpperChar⟩

/-- Decimal digit character for d < 10. -/
def natDigitChar (d : Nat) : Char := Char.ofNat (48 + d)

/-- Decimal digits of n, most significant first (fuel-based so that the
kernel can evaluate it; fuel n+1 always suffices since n/10 < n). -/
def natDigitsAux : Nat → Nat → List Char
  | 0, _ => []
  | fuel + 1, n =>
    if n < 10 then [natDigitChar n]
    else natDigitsAux fuel (n / 10) ++ [natDigitChar (n % 10)]

/-- Decimal rendering of a natural number, as the %d verb prints it. -/
def natDigits (n : Nat) : List Char := natDigitsAux (n + 1) n

/-- Decimal rendering as a string. -/
def natToString (n : Nat) : String := ⟨natDigits n⟩

/-- Zero-pad to two digits (the 01/02/15/04/05 layout components). -/
def pad2 (n : Nat) : String :=
  if n < 10 then ⟨'0' :: natDigits n⟩ else ⟨natDigits n⟩

/-- Zero-pad to four digits (the 2006 layout component). -/
def pad4 (n : Nat) : String :=
  if n < 10 then ⟨'0' :: '0' :: '0' :: natDigits n⟩
  else if n < 100 then ⟨'0' :: '0' :: natDigits n⟩
  else if n < 1000 then ⟨'0' :: natDigits n⟩
  else ⟨natDigits n⟩

/-- A wall-clock instant as the formatters consume it (the result of
time.Now, which the embedding passes in as a parameter). -/
structure DateTime where
  year : Nat
  month : Nat
  day : Nat
  hour : Nat
  minute : Nat
  second : Nat
  tzOffsetMinutes : Int
  deriving DecidableEq

/-- time.Format with layout 2006-01-02 15:04:05. -/
def goFormatDateTime (t : DateTime) : String :=
  pad4 t.year ++ ("-") ++ pad2 t.month ++ ("-") ++ pad2 t.day ++ (" ")
    ++ pad2 t.hour ++ (":") ++ pad2 t.minute ++ (":") ++ pad2 t.second

/-- time.Format with the RFC3339 layout 2006-01-02T15:04:05Z07:00. -/
def goFormatRFC3339 (t : DateTime) : String :=
  let base := pad4 t.year ++ ("-") ++ pad2 t.month ++ ("-") ++ pad2 t.day ++ ("T")
    ++ pad2 t.hour ++ (":") ++ pad2 t.minute ++ (":") ++ pad2 t.second
  if t.tzOffsetMinutes = 0 then base ++ ("Z")
  else
    let a := t.tzOffsetMinutes.natAbs
    let sign := if t.tzOffsetMinutes < 0 then ("-") else ("+")
    base ++ sign ++ pad2 (a / 60) ++ (":") ++ pad2 (a % 60)

/-- filepath.Base: last element of the path after removing trailing
slashes; empty path gives ".", all-slash path gives "/". -/
def filepathBase (p : String) : String :=
  if p.data.isEmpty then (".")
  else
    let r := p.data.reverse.dropWhile (fun c => c = '/')
    if r.isEmpty then ("/")
    else ⟨(r.takeWhile (fun c => c ≠ '/')).reverse⟩

/-! ## JSON marshalling (encoding/json on the fixed log-entry map)

json.Marshal on a map with string keys emits the members in sorted key
order (file, level, line, message, timestamp), escapes strings with the
default HTML-escaping encoder, and cannot fail on a map whose values are
strings and ints - the error branch of the source is kept in the embedding
but is unreachable. -/

/-- Lower-case hexadecimal digit for d < 16. -/
def hexDigitChar (d : Nat) : Char :=
  Char.ofNat (if d < 10 then 48 + d else 87 + d)

/-- encoding/json escaping of one character (default encoder with HTML
escaping): quote and backslash are backslash-escaped, newline / carriage
return / tab use their short forms, other control characters use \u00XX,
the HTML-sensitive characters and the line/paragraph separators use \u
forms, everything else is emitted raw. -/
def goJsonEscapeChar (c : Char) : List Char :=
  if c = '"' then ['\\', '"']
  else if c = '\\' then ['\\', '\\']
  else if c = '\n' then ['\\', 'n']
  else if c = '\r' then ['\\', 'r']
  else if c = '\t' then ['\\', 't']
  else if c.toNat < 32 then
    ['\\', 'u', '0', '0', hexDigitChar (c.toNat / 16), hexDigitChar (c.toNat % 16)]
  else if c = '<' then ['\\', 'u', '0', '0', '3', 'c']
  else if c = '>' then ['\\', 'u', '0', '0', '3', 'e']
  else if c = '&' then ['\\', 'u', '0', '0', '2', '6']
  else if c.toNat = 8232 then ['\\', 'u', '2', '0', '2', '8']
  else if c.toNat = 8233 then ['\\', 'u', '2', '0', '2', '9']
  else [c]

/-- encoding/json escaping of a character sequence. -/
def goJsonEscapeList : List Char → List Char
  | [] => []
  | c :: cs => goJsonEscapeChar c ++ goJsonEscapeList cs

/-- A JSON string literal: quote, escaped content, quote. -/
def jquote (s : String) : List Char :=
  '"' :: (goJsonEscapeList s.data ++ ['"'])

/-- The exact byte sequence json.Marshal produces for the log-entry map
(keys in sorted order, no whitespace). -/
def jsonMarshalLogEntryChars (ts lvlName file : String) (line : Nat) (msg : String) : List Char :=
  '{' ::
  (jquote ("file") ++ (':' :: (jquote file ++ (',' ::
  (jquote ("level") ++ (':' :: (jquote lvlName ++ (',' ::
  (jquote ("line") ++ (':' :: (natDigits line ++ (',' ::
  (jquote ("message") ++ (':' :: (jquote msg ++ (',' ::
  (jquote ("timestamp") ++ (':' :: (jquote ts ++ ['}'])))))))))))))))))))

/-- json.Marshal of the log entry, as a string. -/
def jsonMarshalLogEntry (ts lvlName file : String) (line : Nat) (msg : String) : String :=
  ⟨jsonMarshalLogEntryChars ts lvlName file line msg⟩

/-- json.Marshal with its error channel. Marshalling a map of string and
int values cannot fail, so this always returns ok; the callers' error
branches remain in the embedding for fidelity but are unreachable. -/
def jsonMarshalLogEntryE (ts lvlName file : String) (line : Nat) (msg : String) :
    Except String String :=
  .ok (jsonMarshalLogEntry ts lvlName file line msg)

/-! ## Effects of one logging call -/

/-- Observable effects of a single logging call: the strings written to
the output sink in order, whether the formatter / dispatch callback was
invoked at all (caller capture happens only inside it), and the os.Exit
code if the call terminates the process. -/
structure LogResult where
  writes : List String
  formatterInvoked : Bool
  exitCode : Option Nat
  deriving DecidableEq

/-- The effect of a call that was filtered out: nothing at all. -/
def LogResult.empty : LogResult := ⟨[], false, none⟩

/-! ## Formatter-based variant (current implementation: Formatter
interface, Logger.log dispatch) -/

namespace Fm

/-- The Formatter capability: the two built-ins capture the caller from
the ambient stack; a user-supplied formatter is an arbitrary function of
level and message (the interface passes it nothing else). -/
inductive Formatter where
  | defaultFormatter
  | jsonFormatter
  | custom (f : LogLevel → String → String)

/-- Logger: level threshold, output sink (an opaque handle) and the
active formatter. -/
structure Logger where
  level : LogLevel
  output : Nat
  formatter : Formatter

/-- NewLogger creates a new Logger instance. -/
def NewLogger (output : Nat) (level : LogLevel) (formatter : Formatter) : Logger :=
  ⟨level, output, formatter⟩

/-- SetOutput changes the output destination for the logger. -/
def Logger.SetOutput (l : Logger) (output : Nat) : Logger :=
  { l with output := output }

/-- SetLevel changes the logging level. -/
def Logger.SetLevel (l : Logger) (level : LogLevel) : Logger :=
  { l with level := level }

/-- SetFormatter allows changing the log message format. -/
def Logger.SetFormatter (l : Logger) (formatter : Formatter) : Logger :=
  { l with formatter := formatter }

/-- DefaultFormatter.Format: reads the caller at skip 4, renders
timestamp - file:line - [LEVEL] message with a trailing newline.
callerStack is the stack of the caller; the function pushes its own
frame (line 83, the caller-primitive invocation) first. -/
def DefaultFormatter.Format (callerStack : List Frame) (now : DateTime)
    (level : LogLevel) (message : String) : String :=
  let stack : List Frame := (v1File, 83) :: callerStack
  let fl : String × Nat :=
    match runtimeCaller stack 4 with
    | some fr => (filepathBase fr.1, fr.2)
    | none => (("unknown"), 0)
  goFormatDateTime now ++ (" - ") ++ fl.1 ++ (":") ++ natToString fl.2
    ++ (" - [") ++ logLevelToString level ++ ("] ") ++ message ++ ("\n")

/-- JSONFormatter.Format: reads the caller at skip 4, marshals the entry
map; on a marshal error falls back to a hand-built error object (the
error branch is unreachable for this map shape). Returns the bare JSON
object with no trailing newline. -/
def JSONFormatter.Format (callerStack : List Frame) (now : DateTime)
    (level : LogLevel) (message : String) : String :=
  let stack : List Frame := (v1File, 97) :: callerStack
  let fl : String × Nat :=
    match runtimeCaller stack 4 with
    | some fr => (filepathBase fr.1, fr.2)
    | none => (("unknown"), 0)
  match jsonMarshalLogEntryE (goFormatRFC3339 now) (logLevelToString level) fl.1 fl.2 message with
  | .ok s => s
  | .error _ =>
    ⟨'{' :: (("\"error\": \"failed to format log message\", \"message\": \"").data
      ++ message.data ++ ['"', '}'])⟩

/-- Dispatch through the Formatter interface (a direct call on the
concrete receiver: no extra stack frame beyond the callee itself). -/
def Formatter.Format : Formatter → List Frame → DateTime → LogLevel → String → String
  | .defaultFormatter, callerStack, now, level, msg =>
    DefaultFormatter.Format callerStack now level msg
  | .jsonFormatter, callerStack, now, level, msg =>
    JSONFormatter.Format callerStack now level msg
  | .custom f, _, _, level, msg => f level msg

/-- Logger.log: filter against the threshold (returning before any
formatting or caller capture), otherwise format (pushing the frame of
the Format call, line 124), write the result verbatim with Fprint, and
exit with status 1 if the level is FATAL. Returns the (unmodified)
logger state together with the effects. -/
def Logger.log (l : Logger) (callerStack : List Frame) (now : DateTime)
    (level : LogLevel) (msg : String) : Logger × LogResult :=
  if level < l.level then (l, LogResult.empty)
  else
    let s := l.formatter.Format ((v1File, 124) :: callerStack) now level msg
    (l, ⟨[s], true, if level = FATAL then some 1 else none⟩)

/-- Debug logs a debug message (the call to log is at source line 134). -/
def Logger.Debug (l : Logger) (callerStack : List Frame) (now : DateTime)
    (msg : String) : Logger × LogResult :=
  l.log ((v1File, 134) :: callerStack) now DEBUG msg

/-- Info logs an info message (line 139). -/
def Logger.Info (l : Logger) (callerStack : List Frame) (now : DateTime)
    (msg : String) : Logger × LogResult :=
  l.log ((v1File, 139) :: callerStack) now INFO msg

/-- Warn logs a warning message (line 144). -/
def Logger.Warn (l : Logger) (callerStack : List Frame) (now : DateTime)
    (msg : String) : Logger × LogResult :=
  l.log ((v1File, 144) :: callerStack) now WARN msg

/-- Error logs an error message (line 149). -/
def Logger.Error (l : Logger) (callerStack : List Frame) (now : DateTime)
    (msg : String) : Logger × LogResult :=
  l.log ((v1File, 149) :: callerStack) now ERROR msg

/-- Fatal logs a fatal message and exits the application (line 154). -/
def Logger.Fatal (l : Logger) (callerStack : List Frame) (now : DateTime)
    (msg : String) : Logger × LogResult :=
  l.log ((v1File, 154) :: callerStack) now FATAL msg

end Fm

/-! ## Callback-based variant (older implementation: LogMessage function
field, per-method threshold checks) -/

namespace Cb

/-- The LogMessage dispatch field. NewLogger installs a closure over the
construction-time output that forwards to defaultLogMessage; configuring
JSON assigns the JsonLogMessage method as a bound method value (whose
compiler-generated wrapper is elided from caller lookups); applications
may install arbitrary callbacks. -/
inductive Dispatch where
  | closureDefault (output : Nat)
  | jsonMethod
  | custom (f : LogLevel → String → LogResult)

/-- Whether the dispatch callback is one of the two built-ins. -/
def Dispatch.isBuiltin : Dispatch → Bool
  | .custom _ => false
  | _ => true

/-- Logger of the callback-based variant. -/
structure Logger where
  level : LogLevel
  output : Nat
  LogMessage : Dispatch

/-- NewLogger: installs the default plain-text closure over output. -/
def NewLogger (output : Nat) (level : LogLevel) : Logger :=
  ⟨level, output, .closureDefault output⟩

/-- SetOutput changes the output destination for the logger. -/
def Logger.SetOutput (l : Logger) (output : Nat) : Logger :=
  { l with output := output }

/-- SetLevel changes the logging level. -/
def Logger.SetLevel (l : Logger) (level : LogLevel) : Logger :=
  { l with level := level }

/-- defaultLogMessage: reads the caller at skip 3 (its own frame at line
229 plus closure, public method, application), renders the plain-text
record, writes it, and exits with status 1 on FATAL. The output
parameter is the sink the installing closure captured. -/
def defaultLogMessage (output : Nat) (callerStack : List Frame) (now : DateTime)
    (level : LogLevel) (message : String) : LogResult :=
  let _ := output
  let stack : List Frame := (v2File, 229) :: callerStack
  let fl : String × Nat :=
    match runtimeCaller stack 3 with
    | some fr => (filepathBase fr.1, fr.2)
    | none => (("unknown"), 0)
  ⟨[goFormatDateTime now ++ (" - ") ++ fl.1 ++ (":") ++ natToString fl.2
      ++ (" - [") ++ logLevelToString level ++ ("] ") ++ message ++ ("\n")],
    true, if level = FATAL then some 1 else none⟩

/-- JsonLogMessage: refilter against the threshold, read the caller at
skip 2 (its own frame at line 250 plus the public method; the bound
method value adds no counted frame), marshal the entry and write it with
Fprintln (object plus newline), exiting with status 1 on FATAL. On a
marshal error it falls back to defaultLogMessage with an embedded error
note (unreachable for this map shape; the fallback call site is line
270). -/
def Logger.JsonLogMessage (l : Logger) (callerStack : List Frame) (now : DateTime)
    (level : LogLevel) (message : String) : LogResult :=
  if level < l.level then LogResult.empty
  else
    let stack : List Frame := (v2File, 250) :: callerStack
    let fl : String × Nat :=
      match runtimeCaller stack 2 with
      | some fr => (filepathBase fr.1, fr.2)
      | none => (("unknown"), 0)
    match jsonMarshalLogEntryE (goFormatRFC3339 now) (logLevelToString level) fl.1 fl.2 message with
    | .ok s => ⟨[s ++ ("\n")], true, if level = FATAL then some 1 else none⟩
    | .error e =>
      defaultLogMessage l.output ((v2File, 270) :: callerStack) now level
        ((("Error formatting JSON log: ")) ++ e ++ ((", original message: ")) ++ message)

/-- The indirect call through the LogMessage field: the default closure
contributes one frame (its forwarding call is at line 194); the bound
method value contributes none. -/
def Logger.dispatchAt (l : Logger) (callerStack : List Frame) (now : DateTime)
    (level : LogLevel) (msg : String) : LogResult :=
  match l.LogMessage with
  | .closureDefault o => defaultLogMessage o ((v2File, 194) :: callerStack) now level msg
  | .jsonMethod => l.JsonLogMessage callerStack now level msg
  | .custom f => f level msg

/-- Debug logs a debug message (the LogMessage call is at line 285). -/
def Logger.Debug (l : Logger) (callerStack : List Frame) (now : DateTime)
    (msg : String) : LogResult :=
  if l.level ≤ DEBUG then l.dispatchAt ((v2File, 285) :: callerStack) now DEBUG msg
  else LogResult.empty

/-- Info logs an info message (line 292). -/
def Logger.Info (l : Logger) (callerStack : List Frame) (now : DateTime)
    (msg : String) : LogResult :=
  if l.level ≤ INFO then l.dispatchAt ((v2File, 292) :: callerStack) now INFO msg
  else LogResult.empty

/-- Warn logs a warning message (line 299). -/
def Logger.Warn (l : Logger) (callerStack : List Frame) (now : DateTime)
    (msg : String) : LogResult :=
  if l.level ≤ WARN then l.dispatchAt ((v2File, 299) :: callerStack) now WARN msg
  else LogResult.empty

/-- Error logs an error message (line 306). -/
def Logger.Error (l : Logger) (callerStack : List Frame) (now : DateTime)
    (msg : String) : LogResult :=
  if l.level ≤ ERROR then l.dispatchAt ((v2File, 306) :: callerStack) now ERROR msg
  else LogResult.empty

/-- Fatal logs a fatal message and exits the application (line 313). -/
def Logger.Fatal (l : Logger) (callerStack : List Frame) (now : DateTime)
    (msg : String) : LogResult :=
  if l.level ≤ FATAL then l.dispatchAt ((v2File, 313) :: callerStack) now FATAL msg
  else LogResult.empty

end Cb

/-! ## Configuration layer (config.go, the Formatter-based revision) -/

/-- LoggerConfig holds all configurable settings for the logger. The
Custom formatter field is tagged json:"-" in the source and never
touched by file decoding; it is passed separately where needed. -/
structure LoggerConfig where
  Level : LogLevel
  Output : String
  Format : String
  Filepath : String
  EnableCaller : Bool
  deriving DecidableEq

/-- DefaultConfig returns a LoggerConfig with default values. -/
def DefaultConfig : LoggerConfig :=
  ⟨INFO, ("stdout"), ("text"), (""), true⟩

/-- parseLogLevel: case-insensitive parse of a level name; anything
unrecognized (including the empty string) resolves to INFO. -/
def parseLogLevel (level : String) : LogLevel :=
  let u := goToUpper level
  if u = ("DEBUG") then DEBUG
  else if u = ("INFO") then INFO
  else if u = ("WARN") then WARN
  else if u = ("ERROR") then ERROR
  else if u = ("FATAL") then FATAL
  else INFO

/-- The formatter-selection switch of ApplyConfig: json selects the JSON
formatter, custom selects the supplied formatter (falling back to the
default one, with a diagnostic, when none was supplied), and every other
format name selects the plain-text default formatter. -/
def ApplyConfigFormatter (format : String) (custom : Option Fm.Formatter) : Fm.Formatter :=
  if format = ("json") then .jsonFormatter
  else if format = ("custom") then
    match custom with
    | some f => f
    | none => .defaultFormatter
  else .defaultFormatter

/-- JSON values, as encoding/json classifies decoded input. -/
inductive Jv where
  | null
  | bool (b : Bool)
  | num (n : Int)
  | str (s : String)
  | arr (elems : List Jv)
  | obj (fields : List (String × Jv))

/-- Decoding one object member into LoggerConfig, with encoding/json
struct semantics: keys match field tags case-insensitively, a JSON null
is a no-op, a type mismatch leaves the field unchanged but flags an
error (an UnmarshalTypeError), unknown keys are ignored. Returns the
updated config and whether this member produced an error. -/
def applyConfigField (c : LoggerConfig) (key : String) (v : Jv) : LoggerConfig × Bool :=
  let k := goToUpper key
  if k = ("LEVEL") then
    match v with
    | .null => (c, false)
    | .num n => ({ c with Level := n }, false)
    | _ => (c, true)
  else if k = ("OUTPUT") then
    match v with
    | .null => (c, false)
    | .str s => ({ c with Output := s }, false)
    | _ => (c, true)
  else if k = ("FORMAT") then
    match v with
    | .null => (c, false)
    | .str s => ({ c with Format := s }, false)
    | _ => (c, true)
  else if k = ("FILEPATH") then
    match v with
    | .null => (c, false)
    | .str s => ({ c with Filepath := s }, false)
    | _ => (c, true)
  else if k = ("ENABLE_CALLER") then
    match v with
    | .null => (c, false)
    | .bool b => ({ c with EnableCaller := b }, false)
    | _ => (c, true)
  else (c, false)

/-- Decoding a JSON value over an existing config, with encoding/json
best-effort semantics: a non-object top value is a type error leaving
the config untouched; an object is folded member by member, later
members still applied after an earlier type error, duplicates
overwriting. -/
def decodeLoggerConfig (c : LoggerConfig) (v : Jv) : LoggerConfig × Bool :=
  match v with
  | .obj fields =>
    fields.foldl
      (fun acc kv =>
        let r := applyConfigField acc.1 kv.1 kv.2
        (r.1, acc.2 || r.2))
      (c, false)
  | _ => (c, true)

/-- LoadConfigFromFile: start from DefaultConfig; an unopenable file
(none) or a JSON syntax error detected while reading the value (the
error case, before any field is written) returns the defaults with the
error; otherwise the value is decoded over the defaults and any decode
error is returned alongside the best-effort config. The Bool is the
non-nil-error flag. -/
def LoadConfigFromFile (contents : Option (Except Unit Jv)) : LoggerConfig × Bool :=
  match contents with
  | none => (DefaultConfig, true)
  | some (.error _) => (DefaultConfig, true)
  | some (.ok v) => decodeLoggerConfig DefaultConfig v

/-! ## A sound validator for flat JSON objects

To state that the structured output is well-formed JSON, we define an
executable validator for a subset of the JSON grammar: an object whose
members are string keys paired with string or integer values, with no
surrounding whitespace. Every string the validator accepts is generated
by the JSON grammar (RFC 8259): string literals admit only unescaped
characters at or above U+0020 other than quote and backslash, the short
escapes, and \uXXXX with hexadecimal digits; numbers admit only 0 or a
nonzero leading digit followed by digits. Acceptance therefore implies
well-formedness as a JSON object. -/

/-- Decimal digit test, by code point. -/
def isDigitB (c : Char) : Bool :=
  decide (48 ≤ c.toNat) && decide (c.toNat ≤ 57)

/-- Hexadecimal digit test (digits, lower- and upper-case letters). -/
def isHexDigitB (c : Char) : Bool :=
  isDigitB c || (decide (97 ≤ c.toNat) && decide (c.toNat ≤ 102))
    || (decide (65 ≤ c.toNat) && decide (c.toNat ≤ 70))

/-- The characters allowed after a backslash in a JSON string (besides u). -/
def isSimpleEscapeChar (c : Char) : Bool :=
  c = '"' || c = '\\' || c = '/' || c = 'b' || c = 'f' || c = 'n' || c = 'r' || c = 't'

/-- Consume the remainder of a JSON string literal (the opening quote
already consumed); returns the input after the closing quote. -/
def chompString : List Char → Option (List Char)
  | [] => none
  | c :: cs =>
    if c = '"' then some cs
    else if c = '\\' then
      match cs with
      | [] => none
      | e :: cs2 =>
        if e = 'u' then
          match cs2 with
          | h1 :: h2 :: h3 :: h4 :: cs3 =>
            if isHexDigitB h1 && isHexDigitB h2 && isHexDigitB h3 && isHexDigitB h4
            then chompString cs3 else none
          | _ => none
        else if isSimpleEscapeChar e then chompString cs2
        else none
    else if 32 ≤ c.toNat then chompString cs
    else none

/-- Consume a JSON integer (0, or a nonzero digit followed by digits). -/
def chompNat : List Char → Option (List Char)
  | [] => none
  | c :: rest =>
    if c = '0' then some rest
    else if isDigitB c then some (rest.dropWhile isDigitB)
    else none

/-- Consume a JSON value of the subset (string or integer). -/
def chompValue : List Char → Option (List Char)
  | [] => none
  | c :: rest => if c = '"' then chompString rest else chompNat (c :: rest)

/-- Consume one object member: a string key, a colon, a value. -/
def chompMember : List Char → Option (List Char)
  | '"' :: rest =>
    match chompString rest with
    | some (':' :: rest2) => chompValue rest2
    | _ => none
  | _ => none

/-- Consume up to fuel object members separated by commas, ending at the
closing brace; returns what follows the brace. -/
def chompMembers : Nat → List Char → Option (List Char)
  | 0, _ => none
  | fuel + 1, cs =>
    match chompMember cs with
    | some (',' :: rest) => chompMembers fuel rest
    | some ('}' :: rest) => some rest
    | _ => none

/-- Consume an opening brace and the members of a non-empty object. -/
def chompTopObject (fuel : Nat) : List Char → Option (List Char)
  | '{' :: cs => chompMembers fuel cs
  | _ => none

/-- s is a well-formed flat JSON object with at most fuel members. -/
def isFlatJsonObject (fuel : Nat) (s : String) : Bool :=
  (chompTopObject fuel s.data == some []) || (s.data == ['{', '}'])

/-! ### Validator lemmas -/

theorem hexDigitChar_isHex (d : Nat) (h : d < 16) :
    isHexDigitB (hexDigitChar d) = true := by
  interval_cases d <;> decide

theorem chompString_quote (rest : List Char) :
    chompString ('"' :: rest) = some rest := by
  rw [chompString.eq_def]
  simp

theorem chompString_simple (e : Char) (he : isSimpleEscapeChar e = true)
    (hne : ¬ e = 'u') (rest : List Char) :
    chompString ('\\' :: e :: rest) = chompString rest := by
  rw [chompString.eq_def]
  simp [he, hne]

theorem chompString_u4 (a b c d : Char) (ha : isHexDigitB a = true)
    (hb : isHexDigitB b = true) (hc : isHexDigitB c = true)
    (hd : isHexDigitB d = true) (rest : List Char) :
    chompString ('\\' :: 'u' :: a :: b :: c :: d :: rest) = chompString rest := by
  rw [chompString.eq_def]
  simp [ha, hb, hc, hd]

theorem chompString_raw (c : Char) (h1 : ¬ c = '"') (h2 : ¬ c = '\\')
    (h3 : 32 ≤ c.toNat) (rest : List Char) :
    chompString (c :: rest) = chompString rest := by
  rw [chompString.eq_def]
  simp only [if_neg h1, if_neg h2, if_pos h3]

theorem chompString_escapeChar (c : Char) (rest : List Char) :
    chompString (goJsonEscapeChar c ++ rest) = chompString rest := by
  rw [goJsonEscapeChar]
  by_cases h1 : c = '"'
  · rw [if_pos h1]; exact chompString_simple _ (by decide) (by decide) rest
  rw [if_neg h1]
  by_cases h2 : c = '\\'
  · rw [if_pos h2]; exact chompString_simple _ (by decide) (by decide) rest
  rw [if_neg h2]
  by_cases h3 : c = '\n'
  · rw [if_pos h3]; exact chompString_simple _ (by decide) (by decide) rest
  rw [if_neg h3]
  by_cases h4 : c = '\r'
  · rw [if_pos h4]; exact chompString_simple _ (by decide) (by decide) rest
  rw [if_neg h4]
  by_cases h5 : c = '\t'
  · rw [if_pos h5]; exact chompString_simple _ (by decide) (by decide) rest
  rw [if_neg h5]
  by_cases h6 : c.toNat < 32
  · rw [if_pos h6]
    exact chompString_u4 _ _ _ _ (by decide) (by decide)
      (hexDigitChar_isHex _ (by omega)) (hexDigitChar_isHex _ (by omega)) rest
  rw [if_neg h6]
  by_cases h7 : c = '<'
  · rw [if_pos h7]
    exact chompString_u4 _ _ _ _ (by decide) (by decide) (by decide) (by decide) rest
  rw [if_neg h7]
  by_cases h8 : c = '>'
  · rw [if_pos h8]
    exact chompString_u4 _ _ _ _ (by decide) (by decide) (by decide) (by decide) rest
  rw [if_neg h8]
  by_cases h9 : c = '&'
  · rw [if_pos h9]
    exact chompString_u4 _ _ _ _ (by decide) (by decide) (by decide) (by decide) rest
  rw [if_neg h9]
  by_cases h10 : c.toNat = 8232
  · rw [if_pos h10]
    exact chompString_u4 _ _ _ _ (by decide) (by decide) (by decide) (by decide) rest
  rw [if_neg h10]
  by_cases h11 : c.toNat = 8233
  · rw [if_pos h11]
    exact chompString_u4 _ _ _ _ (by decide) (by decide) (by decide) (by decide) rest
  rw [if_neg h11]
  exact chompString_raw c h1 h2 (by omega) rest

theorem chompString_escaped (s : List Char) (rest : List Char) :
    chompString (goJsonEscapeList s ++ '"' :: rest) = some rest := by
  induction s with
  | nil => exact chompString_quote rest
  | cons c cs ih =>
    rw [goJsonEscapeList, List.append_assoc, chompString_escapeChar, ih]

theorem isDigitB_natDigitChar (d : Nat) (h : d < 10) :
    isDigitB (natDigitChar d) = true := by
  interval_cases d <;> decide

theorem natDigitChar_ne_zero (d : Nat) (h1 : 1 ≤ d) (h2 : d < 10) :
    natDigitChar d ≠ '0' := by
  interval_cases d <;> decide

theorem isDigitB_ne_quote (c : Char) (h : isDigitB c = true) : ¬ c = '"' := by
  intro hc
  subst hc
  exact absurd h (by decide)

/-- Shape of the decimal rendering: a digit head, digit tail, the head
nonzero unless n is zero (in which case the rendering is just 0). -/
theorem natDigitsAux_shape (fuel : Nat) :
    ∀ n, n < fuel →
      ∃ d ds, natDigitsAux fuel n = d :: ds ∧ isDigitB d = true ∧
        (∀ c ∈ ds, isDigitB c = true) ∧ (1 ≤ n → d ≠ '0') ∧
        (n = 0 → d = '0' ∧ ds = []) := by
  induction fuel with
  | zero => intro n hn; omega
  | succ fuel ih =>
    intro n hn
    by_cases h10 : n < 10
    · refine ⟨natDigitChar n, [], ?_, isDigitB_natDigitChar n h10, ?_, ?_, ?_⟩
      · rw [natDigitsAux, if_pos h10]
      · intro c hc; cases hc
      · intro h1; exact natDigitChar_ne_zero n h1 h10
      · intro h0; subst h0; exact ⟨rfl, rfl⟩
    · have hrec : n / 10 < fuel := by omega
      obtain ⟨d, ds, heq, hd, hds, hnz, _⟩ := ih (n / 10) hrec
      refine ⟨d, ds ++ [natDigitChar (n % 10)], ?_, hd, ?_, ?_, ?_⟩
      · rw [natDigitsAux, if_neg h10, heq]
        simp
      · intro c hc
        rcases List.mem_append.mp hc with hc1 | hc2
        · exact hds c hc1
        · rcases List.mem_singleton.mp hc2 with rfl
          exact isDigitB_natDigitChar _ (by omega)
      · intro _; exact hnz (by omega)
      · intro h0; omega

theorem natDigits_shape (n : Nat) :
    ∃ d ds, natDigits n = d :: ds ∧ isDigitB d = true ∧
      (∀ c ∈ ds, isDigitB c = true) ∧ (1 ≤ n → d ≠ '0') ∧
      (n = 0 → d = '0' ∧ ds = []) :=
  natDigitsAux_shape (n + 1) n (by omega)

theorem dropWhile_digits (xs : List Char) (h : ∀ c ∈ xs, isDigitB c = true)
    (rest : List Char) :
    List.dropWhile isDigitB (xs ++ ',' :: rest) = ',' :: rest := by
  induction xs with
  | nil =>
    rw [List.nil_append, List.dropWhile_cons_of_neg (by decide)]
  | cons c cs ih =>
    have hc : isDigitB c = true := h c (List.mem_cons_self c cs)
    rw [List.cons_append, List.dropWhile_cons_of_pos hc]
    exact ih (fun x hx => h x (List.mem_cons_of_mem c hx))

theorem chompNat_natDigits (n : Nat) (rest : List Char) :
    chompNat (natDigits n ++ ',' :: rest) = some (',' :: rest) := by
  obtain ⟨d, ds, heq, hd, hds, hnz, hz⟩ := natDigits_shape n
  rw [heq]
  by_cases h0 : n = 0
  · obtain ⟨hd0, hds0⟩ := hz h0
    subst hd0; subst hds0
    rw [chompNat.eq_def]
    simp
  · have hdz : ¬ d = '0' := hnz (by omega)
    rw [List.cons_append, chompNat.eq_def]
    simp only [if_neg hdz, hd, if_pos]
    rw [dropWhile_digits ds hds rest]

theorem chompValue_jquote (s : String) (rest : List Char) :
    chompValue (jquote s ++ rest) = some rest := by
  rw [jquote, List.cons_append, chompValue.eq_def]
  simp only [if_pos]
  rw [List.append_assoc, List.singleton_append, chompString_escaped]

theorem chompValue_natDigits (n : Nat) (rest : List Char) :
    chompValue (natDigits n ++ ',' :: rest) = some (',' :: rest) := by
  obtain ⟨d, ds, heq, hd, _, _, _⟩ := natDigits_shape n
  have hq : ¬ d = '"' := isDigitB_ne_quote d hd
  rw [heq, List.cons_append, chompValue.eq_def]
  simp only [if_neg hq]
  rw [← List.cons_append, ← heq]
  exact chompNat_natDigits n rest

theorem chompMember_kv_str (k v : String) (rest : List Char) :
    chompMember (jquote k ++ (':' :: (jquote v ++ rest))) = some rest := by
  rw [jquote, List.cons_append, List.append_assoc, List.singleton_append]
  rw [chompMember.eq_def]
  simp only []
  rw [chompString_escaped]
  exact chompValue_jquote v rest

theorem chompMember_kv_nat (k : String) (n : Nat) (rest : List Char) :
    chompMember (jquote k ++ (':' :: (natDigits n ++ ',' :: rest))) = some (',' :: rest) := by
  rw [jquote, List.cons_append, List.append_assoc, List.singleton_append]
  rw [chompMember.eq_def]
  simp only []
  rw [chompString_escaped]
  exact chompValue_natDigits n rest

theorem chompMembers_cons_str (fuel : Nat) (k v : String) (rest : List Char) :
    chompMembers (fuel + 1) (jquote k ++ (':' :: (jquote v ++ (',' :: rest))))
      = chompMembers fuel rest := by
  rw [chompMembers.eq_def]
  simp only []
  rw [chompMember_kv_str k v (',' :: rest)]
  rfl

theorem chompMembers_cons_nat (fuel : Nat) (k : String) (n : Nat) (rest : List Char) :
    chompMembers (fuel + 1) (jquote k ++ (':' :: (natDigits n ++ ',' :: rest)))
      = chompMembers fuel rest := by
  rw [chompMembers.eq_def]
  simp only []
  rw [chompMember_kv_nat k n rest]
  rfl

theorem chompMembers_last_str (fuel : Nat) (k v : String) :
    chompMembers (fuel + 1) (jquote k ++ (':' :: (jquote v ++ ['}']))) = some [] := by
  rw [chompMembers.eq_def]
  simp only []
  rw [chompMember_kv_str k v ['}']]
  rfl

/-- The marshalled log entry is always accepted by the flat-object
validator, for arbitrary timestamp, level name, file, line and message. -/
theorem isFlatJsonObject_marshal (ts lvl file : String) (line : Nat) (msg : String) :
    isFlatJsonObject 5 (jsonMarshalLogEntry ts lvl file line msg) = true := by
  have h0 : isFlatJsonObject 5 (jsonMarshalLogEntry ts lvl file line msg)
      = ((chompMembers 5
          (jquote ("file") ++ (':' :: (jquote file ++ (',' ::
          (jquote ("level") ++ (':' :: (jquote lvl ++ (',' ::
          (jquote ("line") ++ (':' :: (natDigits line ++ (',' ::
          (jquote ("message") ++ (':' :: (jquote msg ++ (',' ::
          (jquote ("timestamp") ++ (':' :: (jquote ts ++ ['}']))))))))))))))))))) == some [])
        || (jsonMarshalLogEntryChars ts lvl file line msg == ['{', '}'])) := rfl
  rw [h0]
  rw [show (5 : Nat) = 4 + 1 from rfl, chompMembers_cons_str]
  rw [show (4 : Nat) = 3 + 1 from rfl, chompMembers_cons_str]
  rw [show (3 : Nat) = 2 + 1 from rfl, chompMembers_cons_nat]
  rw [show (2 : Nat) = 1 + 1 from rfl, chompMembers_cons_str]
  rw [show (1 : Nat) = 0 + 1 from rfl, chompMembers_last_str]
  simp

/-! ## Auxiliary facts about the logger embeddings -/

/-- Whether the final character of a string is a newline. -/
def strEndsWithNewline (s : String) : Bool :=
  s.data.getLast? == some '\n'

theorem string_data_append (a b : String) : (a ++ b).data = a.data ++ b.data := by
  cases a; cases b; rfl

theorem gl_cons (a c : Char) (l : List Char) (h : l.getLast? = some c) :
    (a :: l).getLast? = some c := by
  cases l with
  | nil => simp [List.getLast?] at h
  | cons b m => rw [List.getLast?_cons_cons]; exact h

theorem gl_app (l₁ l₂ : List Char) (c : Char) (h : l₂.getLast? = some c) :
    (l₁ ++ l₂).getLast? = some c := by
  cases l₂ with
  | nil => simp [List.getLast?] at h
  | cons b m => rw [List.getLast?_append_cons]; exact h

theorem strEndsWithNewline_append_nl (s : String) :
    strEndsWithNewline (s ++ ("\n")) = true := by
  unfold strEndsWithNewline
  rw [string_data_append, gl_app s.data (("\n").data) '\n' (by rfl)]
  rfl

/-- The marshalled JSON object always ends in a closing brace. -/
theorem jsonMarshal_getLast (ts lvl file : String) (line : Nat) (msg : String) :
    (jsonMarshalLogEntryChars ts lvl file line msg).getLast? = some '}' := by
  unfold jsonMarshalLogEntryChars
  repeat first | rfl | apply gl_app | apply gl_cons

theorem strEndsWithNewline_marshal (ts lvl file : String) (line : Nat) (msg : String) :
    strEndsWithNewline (jsonMarshalLogEntry ts lvl file line msg) = false := by
  unfold strEndsWithNewline jsonMarshalLogEntry
  rw [show (String.mk (jsonMarshalLogEntryChars ts lvl file line msg)).data
      = jsonMarshalLogEntryChars ts lvl file line msg from rfl]
  rw [jsonMarshal_getLast]
  rfl

theorem fm_log_filtered (l : Fm.Logger) (stack : List Frame) (now : DateTime)
    (level : LogLevel) (msg : String) (h : level < l.level) :
    Fm.Logger.log l stack now level msg = (l, LogResult.empty) := by
  unfold Fm.Logger.log
  rw [if_pos h]

theorem fm_log_pass (l : Fm.Logger) (stack : List Frame) (now : DateTime)
    (level : LogLevel) (msg : String) (h : l.level ≤ level) :
    Fm.Logger.log l stack now level msg
      = (l, ⟨[Fm.Formatter.Format l.formatter ((v1File, 124) :: stack) now level msg],
             true, if level = FATAL then some 1 else none⟩) := by
  unfold Fm.Logger.log
  rw [if_neg (not_lt.mpr h)]

theorem fm_log_fst (l : Fm.Logger) (stack : List Frame) (now : DateTime)
    (level : LogLevel) (msg : String) :
    (Fm.Logger.log l stack now level msg).1 = l := by
  unfold Fm.Logger.log
  split <;> rfl

theorem cb_dispatch_writes_one (c : Cb.Logger) (stack : List Frame) (now : DateTime)
    (lvl : LogLevel) (msg : String) (hpass : c.level ≤ lvl)
    (hb : c.LogMessage.isBuiltin = true) :
    (Cb.Logger.dispatchAt c stack now lvl msg).writes.length = 1 := by
  cases hLM : c.LogMessage with
  | closureDefault o => simp [Cb.Logger.dispatchAt, hLM, Cb.defaultLogMessage]
  | jsonMethod =>
    have hn : ¬ (lvl < c.level) := not_lt.mpr hpass
    simp [Cb.Logger.dispatchAt, hLM, Cb.Logger.JsonLogMessage, hn, jsonMarshalLogEntryE]
  | custom f => simp [Cb.Dispatch.isBuiltin, hLM] at hb

theorem cb_dispatch_exit_none (c : Cb.Logger) (stack : List Frame) (now : DateTime)
    (lvl : LogLevel) (msg : String) (hlvl : ¬ lvl = FATAL)
    (hb : c.LogMessage.isBuiltin = true) :
    (Cb.Logger.dispatchAt c stack now lvl msg).exitCode = none := by
  cases hLM : c.LogMessage with
  | closureDefault o => simp [Cb.Logger.dispatchAt, hLM, Cb.defaultLogMessage, hlvl]
  | jsonMethod =>
    by_cases hf : lvl < c.level
    · simp [Cb.Logger.dispatchAt, hLM, Cb.Logger.JsonLogMessage, hf, LogResult.empty]
    · simp [Cb.Logger.dispatchAt, hLM, Cb.Logger.JsonLogMessage, hf,
        jsonMarshalLogEntryE, hlvl]
  | custom f => simp [Cb.Dispatch.isBuiltin, hLM] at hb

/-- Concrete application call stack: the application calls the logger
from main.go line 17; above it sits the runtime frame that invoked the
application function (proc.go line 267). -/
def appStack0 : List Frame := [(("main.go"), 17), (("proc.go"), 267)]

/-- A second concrete application call stack (app.go line 42, invoked
from proc.go line 250). -/
def appStack1 : List Frame := [(("app.go"), 42), (("proc.go"), 250)]

/-- A fixed wall-clock instant (UTC). -/
def now0 : DateTime := ⟨2025, 1, 2, 3, 4, 5, 0⟩

/-! ## Claims -/

/-- C1: the claim states that the caller file and line rendered into the
output name the application's call site on all four dispatch paths. The
code contradicts it: the Formatter-based paths read the caller at skip 4,
but only three library frames (the public method, log, and the formatter
itself) separate the formatter from the application, so the frame
reported is the one above the application's call site (here the runtime
frame proc.go:267 rather than the application frame main.go:17), on both
the text and the JSON path. The callback-based paths (skip 3 through the
installed closure, skip 2 through the bound method) do report the
application frame main.go:17. This theorem evaluates all four paths at
the failing input. -/
theorem c1_caller_depth_eval :
    ((Fm.Logger.Info (Fm.NewLogger 0 DEBUG .defaultFormatter) appStack0 now0 ("hi")).2.writes
      = [("2025-01-02 03:04:05 - proc.go:267 - [INFO] hi\n")])
    ∧ ((Fm.Logger.Info (Fm.NewLogger 0 DEBUG .jsonFormatter) appStack0 now0 ("hi")).2.writes
      = [("\x7b\"file\":\"proc.go\",\"level\":\"INFO\",\"line\":267,\"message\":\"hi\",\"timestamp\":\"2025-01-02T03:04:05Z\"\x7d")])
    ∧ ((Cb.Logger.Info (Cb.NewLogger 0 DEBUG) appStack0 now0 ("hi")).writes
      = [("2025-01-02 03:04:05 - main.go:17 - [INFO] hi\n")])
    ∧ ((Cb.Logger.Info ⟨DEBUG, 0, .jsonMethod⟩ appStack0 now0 ("hi")).writes
      = [("\x7b\"file\":\"main.go\",\"level\":\"INFO\",\"line\":17,\"message\":\"hi\",\"timestamp\":\"2025-01-02T03:04:05Z\"\x7d\n")])
    ∧ ("proc.go") ≠ ("main.go") := by
  refine ⟨?_, ?_, ?_, ?_, ?_⟩ <;> decide

/-- C2: a call at level L1 against threshold L2 writes nothing and
invokes no formatter (hence captures no caller) when L1 is below L2, and
writes exactly one formatted record otherwise. Stated for the shared
routine and the five public methods of the Formatter-based variant, and
for the five public methods of the callback-based variant under its two
built-in dispatch callbacks. -/
theorem c2_threshold_filtering :
    (∀ (l : Fm.Logger) (stack : List Frame) (now : DateTime) (level : LogLevel) (msg : String),
      (level < l.level → Fm.Logger.log l stack now level msg = (l, LogResult.empty))
      ∧ (l.level ≤ level →
          (Fm.Logger.log l stack now level msg).2.writes
            = [Fm.Formatter.Format l.formatter ((v1File, 124) :: stack) now level msg]
          ∧ (Fm.Logger.log l stack now level msg).2.formatterInvoked = true))
    ∧ (∀ (l : Fm.Logger) (stack : List Frame) (now : DateTime) (msg : String),
        Fm.Logger.Debug l stack now msg = Fm.Logger.log l ((v1File, 134) :: stack) now DEBUG msg
        ∧ Fm.Logger.Info l stack now msg = Fm.Logger.log l ((v1File, 139) :: stack) now INFO msg
        ∧ Fm.Logger.Warn l stack now msg = Fm.Logger.log l ((v1File, 144) :: stack) now WARN msg
        ∧ Fm.Logger.Error l stack now msg = Fm.Logger.log l ((v1File, 149) :: stack) now ERROR msg
        ∧ Fm.Logger.Fatal l stack now msg = Fm.Logger.log l ((v1File, 154) :: stack) now FATAL msg)
    ∧ (∀ (c : Cb.Logger) (stack : List Frame) (now : DateTime) (msg : String),
        (DEBUG < c.level → Cb.Logger.Debug c stack now msg = LogResult.empty)
        ∧ (c.level ≤ DEBUG → c.LogMessage.isBuiltin = true →
            (Cb.Logger.Debug c stack now msg).writes.length = 1)
        ∧ (INFO < c.level → Cb.Logger.Info c stack now msg = LogResult.empty)
        ∧ (c.level ≤ INFO → c.LogMessage.isBuiltin = true →
            (Cb.Logger.Info c stack now msg).writes.length = 1)
        ∧ (WARN < c.level → Cb.Logger.Warn c stack now msg = LogResult.empty)
        ∧ (c.level ≤ WARN → c.LogMessage.isBuiltin = true →
            (Cb.Logger.Warn c stack now msg).writes.length = 1)
        ∧ (ERROR < c.level → Cb.Logger.Error c stack now msg = LogResult.empty)
        ∧ (c.level ≤ ERROR → c.LogMessage.isBuiltin = true →
            (Cb.Logger.Error c stack now msg).writes.length = 1)
        ∧ (FATAL < c.level → Cb.Logger.Fatal c stack now msg = LogResult.empty)
        ∧ (c.level ≤ FATAL → c.LogMessage.isBuiltin = true →
            (Cb.Logger.Fatal c stack now msg).writes.length = 1)) := by
  refine ⟨?_, ?_, ?_⟩
  · intro l stack now level msg
    refine ⟨fun h => fm_log_filtered l stack now level msg h, fun h => ?_⟩
    rw [fm_log_pass l stack now level msg h]
    exact ⟨rfl, rfl⟩
  · intro l stack now msg
    exact ⟨rfl, rfl, rfl, rfl, rfl⟩
  · intro c stack now msg
    refine ⟨fun h => ?_, fun h hb => ?_, fun h => ?_, fun h hb => ?_, fun h => ?_,
      fun h hb => ?_, fun h => ?_, fun h hb => ?_, fun h => ?_, fun h hb => ?_⟩
    · unfold Cb.Logger.Debug; rw [if_neg (not_le.mpr h)]
    · unfold Cb.Logger.Debug; rw [if_pos h]; exact cb_dispatch_writes_one c _ now _ msg h hb
    · unfold Cb.Logger.Info; rw [if_neg (not_le.mpr h)]
    · unfold Cb.Logger.Info; rw [if_pos h]; exact cb_dispatch_writes_one c _ now _ msg h hb
    · unfold Cb.Logger.Warn; rw [if_neg (not_le.mpr h)]
    · unfold Cb.Logger.Warn; rw [if_pos h]; exact cb_dispatch_writes_one c _ now _ msg h hb
    · unfold Cb.Logger.Error; rw [if_neg (not_le.mpr h)]
    · unfold Cb.Logger.Error; rw [if_pos h]; exact cb_dispatch_writes_one c _ now _ msg h hb
    · unfold Cb.Logger.Fatal; rw [if_neg (not_le.mpr h)]
    · unfold Cb.Logger.Fatal; rw [if_pos h]; exact cb_dispatch_writes_one c _ now _ msg h hb

/-- Witness for C2 at concrete inputs: a DEBUG call on a WARN-threshold
logger is dropped entirely; an ERROR call on the same logger writes the
one formatted record. -/
theorem c2_threshold_filtering_witness :
    Fm.Logger.log (Fm.NewLogger 0 WARN .defaultFormatter) appStack1 now0 DEBUG ("m")
      = (Fm.NewLogger 0 WARN .defaultFormatter, LogResult.empty)
    ∧ (Fm.Logger.log (Fm.NewLogger 0 WARN .defaultFormatter) appStack1 now0 ERROR ("m")).2.writes
      = [Fm.Formatter.Format Fm.Formatter.defaultFormatter
          ((v1File, 124) :: appStack1) now0 ERROR ("m")] :=
  ⟨(c2_threshold_filtering.1 (Fm.NewLogger 0 WARN .defaultFormatter) appStack1 now0 DEBUG ("m")).1
      (by decide),
   ((c2_threshold_filtering.1 (Fm.NewLogger 0 WARN .defaultFormatter) appStack1 now0 ERROR ("m")).2
      (by decide)).1⟩

/-- C3 counterexample: the claim asserts a Fatal call writes once and
terminates for every Logger state, including any threshold value. With
the (representable) threshold 5, above FATAL, the shared routine filters
the call out: nothing is written and the process is not terminated. -/
theorem c3_counterexample_high_threshold :
    ((Fm.Logger.Fatal (Fm.NewLogger 0 5 .defaultFormatter) appStack0 now0 ("boom")).2.writes = [])
    ∧ ((Fm.Logger.Fatal (Fm.NewLogger 0 5 .defaultFormatter) appStack0 now0 ("boom")).2.exitCode
        = none) := by
  refine ⟨?_, ?_⟩ <;> decide

/-- C3 amended: when the threshold is at most FATAL (in particular for
all five defined levels), a Fatal call performs exactly one write and
terminates with exit status 1; no call at a level other than FATAL ever
terminates; a Fatal call against a threshold above FATAL is filtered,
writing nothing and not terminating. Stated for both variants (the
callback variant under its built-in dispatch callbacks). -/
theorem c3_fatal_exit_amended :
    (∀ (l : Fm.Logger) (stack : List Frame) (now : DateTime) (msg : String),
      l.level ≤ FATAL →
        (Fm.Logger.Fatal l stack now msg).2.writes.length = 1
        ∧ (Fm.Logger.Fatal l stack now msg).2.exitCode = some 1)
    ∧ (∀ (l : Fm.Logger) (stack : List Frame) (now : DateTime) (level : LogLevel) (msg : String),
        level ≠ FATAL → (Fm.Logger.log l stack now level msg).2.exitCode = none)
    ∧ (∀ (l : Fm.Logger) (stack : List Frame) (now : DateTime) (msg : String),
        FATAL < l.level → Fm.Logger.Fatal l stack now msg = (l, LogResult.empty))
    ∧ (∀ (c : Cb.Logger) (stack : List Frame) (now : DateTime) (msg : String),
        c.level ≤ FATAL → c.LogMessage.isBuiltin = true →
          (Cb.Logger.Fatal c stack now msg).writes.length = 1
          ∧ (Cb.Logger.Fatal c stack now msg).exitCode = some 1)
    ∧ (∀ (c : Cb.Logger) (stack : List Frame) (now : DateTime) (msg : String),
        c.LogMessage.isBuiltin = true →
          (Cb.Logger.Debug c stack now msg).exitCode = none
          ∧ (Cb.Logger.Info c stack now msg).exitCode = none
          ∧ (Cb.Logger.Warn c stack now msg).exitCode = none
          ∧ (Cb.Logger.Error c stack now msg).exitCode = none)
    ∧ (∀ (c : Cb.Logger) (stack : List Frame) (now : DateTime) (msg : String),
        FATAL < c.level → Cb.Logger.Fatal c stack now msg = LogResult.empty) := by
  refine ⟨?_, ?_, ?_, ?_, ?_, ?_⟩
  · intro l stack now msg h
    unfold Fm.Logger.Fatal
    rw [fm_log_pass l _ now FATAL msg h]
    exact ⟨rfl, rfl⟩
  · intro l stack now level msg h
    unfold Fm.Logger.log
    split
    · rfl
    · simp [h]
  · intro l stack now msg h
    unfold Fm.Logger.Fatal
    exact fm_log_filtered l _ now FATAL msg h
  · intro c stack now msg h hb
    unfold Cb.Logger.Fatal
    rw [if_pos h]
    refine ⟨cb_dispatch_writes_one c _ now FATAL msg h hb, ?_⟩
    cases hLM : c.LogMessage with
    | closureDefault o => simp [Cb.Logger.dispatchAt, hLM, Cb.defaultLogMessage]
    | jsonMethod =>
      have hn : ¬ ((FATAL : LogLevel) < c.level) := not_lt.mpr h
      simp [Cb.Logger.dispatchAt, hLM, Cb.Logger.JsonLogMessage, hn, jsonMarshalLogEntryE]
    | custom f => simp [Cb.Dispatch.isBuiltin, hLM] at hb
  · intro c stack now msg hb
    refine ⟨?_, ?_, ?_, ?_⟩ <;>
      first
      | (unfold Cb.Logger.Debug
         split
         · exact cb_dispatch_exit_none c _ now DEBUG msg (by decide) hb
         · rfl)
      | (unfold Cb.Logger.Info
         split
         · exact cb_dispatch_exit_none c _ now INFO msg (by decide) hb
         · rfl)
      | (unfold Cb.Logger.Warn
         split
         · exact cb_dispatch_exit_none c _ now WARN msg (by decide) hb
         · rfl)
      | (unfold Cb.Logger.Error
         split
         · exact cb_dispatch_exit_none c _ now ERROR msg (by decide) hb
         · rfl)
  · intro c stack now msg h
    unfold Cb.Logger.Fatal
    rw [if_neg (not_le.mpr h)]

/-- Witness for C3 amended: a WARN-threshold logger (threshold at most
FATAL) writes once and exits on Fatal; an ERROR call never exits. -/
theorem c3_fatal_exit_amended_witness :
    ((Fm.Logger.Fatal (Fm.NewLogger 0 WARN .defaultFormatter) appStack0 now0 ("b")).2.writes.length = 1
      ∧ (Fm.Logger.Fatal (Fm.NewLogger 0 WARN .defaultFormatter) appStack0 now0 ("b")).2.exitCode = some 1)
    ∧ (Fm.Logger.log (Fm.NewLogger 0 WARN .defaultFormatter) appStack0 now0 ERROR ("b")).2.exitCode = none :=
  ⟨c3_fatal_exit_amended.1 (Fm.NewLogger 0 WARN .defaultFormatter) appStack0 now0 ("b") (by decide),
   c3_fatal_exit_amended.2.1 (Fm.NewLogger 0 WARN .defaultFormatter) appStack0 now0 ERROR ("b")
     (by decide)⟩

/-- C4: for every level (in particular the five built-ins) and every
message - as well as every captured file, line and timestamp - the
string produced by the JSON formatter is a well-formed flat JSON object
(accepted by the sound validator isFlatJsonObject). Serialization of the
fixed log-entry map cannot fail, so no error is ever propagated to the
Logger: the formatter is a total function whose error branch is
unreachable. The second conjunct states well-formedness of the shared
marshalling step, which the callback-based JsonLogMessage also writes
(followed by its newline). -/
theorem c4_json_always_wellformed :
    (∀ (stack : List Frame) (now : DateTime) (level : LogLevel) (message : String),
      isFlatJsonObject 5 (Fm.JSONFormatter.Format stack now level message) = true)
    ∧ (∀ (ts lvlName file : String) (line : Nat) (msg : String),
        isFlatJsonObject 5 (jsonMarshalLogEntry ts lvlName file line msg) = true) := by
  refine ⟨?_, ?_⟩
  · intro stack now level message
    exact isFlatJsonObject_marshal _ _ _ _ _
  · intro ts lvlName file line msg
    exact isFlatJsonObject_marshal _ _ _ _ _

/-- C5 counterexample: the claim asserts that every emitted record of
the built-in JSON formatter is the JSON object followed by a newline.
In the Formatter-based variant JSONFormatter.Format returns the bare
object and the Logger writes it verbatim with Fprint: the emitted
record has no trailing line terminator. -/
theorem c5_counterexample_json_no_newline :
    ((Fm.Logger.Warn (Fm.NewLogger 0 DEBUG .jsonFormatter) appStack1 now0 ("x")).2.writes.map
      strEndsWithNewline) = [false] := by
  decide

/-- C5 amended: the Logger writes the formatter result verbatim with no
framing of its own; the plain-text formatter's records end in a newline,
and the callback-based JSON path and plain-text path append a newline to
every record they write; but the Formatter-based JSON formatter returns
the single-line object with no trailing newline, so its emitted records
carry no line terminator. -/
theorem c5_framing_amended :
    (∀ (l : Fm.Logger) (stack : List Frame) (now : DateTime) (level : LogLevel) (msg : String),
      l.level ≤ level →
        (Fm.Logger.log l stack now level msg).2.writes
          = [Fm.Formatter.Format l.formatter ((v1File, 124) :: stack) now level msg])
    ∧ (∀ (stack : List Frame) (now : DateTime) (level : LogLevel) (msg : String),
        strEndsWithNewline (Fm.DefaultFormatter.Format stack now level msg) = true)
    ∧ (∀ (stack : List Frame) (now : DateTime) (level : LogLevel) (msg : String),
        strEndsWithNewline (Fm.JSONFormatter.Format stack now level msg) = false)
    ∧ (∀ (c : Cb.Logger) (stack : List Frame) (now : DateTime) (level : LogLevel) (msg : String),
        (Cb.Logger.JsonLogMessage c stack now level msg).writes.all strEndsWithNewline = true)
    ∧ (∀ (o : Nat) (stack : List Frame) (now : DateTime) (level : LogLevel) (msg : String),
        (Cb.defaultLogMessage o stack now level msg).writes.all strEndsWithNewline = true) := by
  refine ⟨?_, ?_, ?_, ?_, ?_⟩
  · intro l stack now level msg h
    rw [fm_log_pass l stack now level msg h]
  · intro stack now level msg
    exact strEndsWithNewline_append_nl _
  · intro stack now level msg
    exact strEndsWithNewline_marshal _ _ _ _ _
  · intro c stack now level msg
    unfold Cb.Logger.JsonLogMessage
    split
    · rfl
    · simp [jsonMarshalLogEntryE, strEndsWithNewline_append_nl]
  · intro o stack now level msg
    simp [Cb.defaultLogMessage, strEndsWithNewline_append_nl]

/-- Witness for C5 amended: a WARN call passing an INFO threshold writes
exactly the JSON formatter result, unframed. -/
theorem c5_framing_amended_witness :
    (Fm.Logger.log (Fm.NewLogger 0 INFO .jsonFormatter) appStack0 now0 WARN ("w")).2.writes
      = [Fm.Formatter.Format Fm.Formatter.jsonFormatter ((v1File, 124) :: appStack0) now0 WARN ("w")] :=
  c5_framing_amended.1 (Fm.NewLogger 0 INFO .jsonFormatter) appStack0 now0 WARN ("w") (by decide)

/-- C6: the claim states the plain-text record is exactly
timestamp - file:line - [LEVEL] message with a newline, with file the
base name of the call-site source file. The layout, timestamp shape and
base-naming are exactly as claimed, but on the Formatter-based path the
file:line rendered is the frame above the application call site
(proc.go:250 here instead of the call site app.go:42), because of the
skip-4 caller read - the same defect as C1. This theorem evaluates the
formatter at the failing input. -/
theorem c6_text_format_eval :
    ((Fm.Logger.Info (Fm.NewLogger 0 INFO .defaultFormatter) appStack1 now0 ("Info message")).2.writes
      = [("2025-01-02 03:04:05 - proc.go:250 - [INFO] Info message\n")])
    ∧ ("proc.go") ≠ ("app.go") := by
  refine ⟨?_, ?_⟩ <;> decide

/-- The if-chain parseLogLevel reduces to (the source's single ToUpper
evaluation in the switch head, written out). -/
theorem parseLogLevel_eq (s : String) :
    parseLogLevel s
      = (if goToUpper s = ("DEBUG") then DEBUG
        else if goToUpper s = ("INFO") then INFO
        else if goToUpper s = ("WARN") then WARN
        else if goToUpper s = ("ERROR") then ERROR
        else if goToUpper s = ("FATAL") then FATAL
        else INFO) := rfl

/-- C7: level-name parsing is case-insensitive (it depends only on the
upper-cased image of the input) and total with fallback INFO on every
input whose upper-casing is not one of the five names (including the
empty string); and the configuration assembler selects the plain-text
formatter for every format name other than json and custom. -/
theorem c7_parse_and_format_fallbacks :
    (∀ s t : String, goToUpper s = goToUpper t → parseLogLevel s = parseLogLevel t)
    ∧ (∀ s : String,
        goToUpper s ∉ [("DEBUG"), ("INFO"), ("WARN"), ("ERROR"), ("FATAL")] →
          parseLogLevel s = INFO)
    ∧ (∀ (format : String) (custom : Option Fm.Formatter),
        format ≠ ("json") → format ≠ ("custom") →
          ApplyConfigFormatter format custom = Fm.Formatter.defaultFormatter) := by
  refine ⟨?_, ?_, ?_⟩
  · intro s t h
    rw [parseLogLevel_eq, parseLogLevel_eq, h]
  · intro s h
    simp only [List.mem_cons, List.mem_singleton, not_or, List.not_mem_nil, not_false_iff,
      and_true] at h
    obtain ⟨h1, h2, h3, h4, h5⟩ := h
    rw [parseLogLevel_eq, if_neg h1, if_neg h2, if_neg h3, if_neg h4, if_neg h5]
  · intro format custom h1 h2
    unfold ApplyConfigFormatter
    rw [if_neg h1, if_neg h2]

/-- Witness for C7: a mixed-case name parses like its upper-case form,
an unrecognized name parses to INFO, and an unrecognized format name
selects the default formatter. -/
theorem c7_parse_and_format_fallbacks_witness :
    parseLogLevel ("Warn") = parseLogLevel ("WARN")
    ∧ parseLogLevel ("bogus") = INFO
    ∧ ApplyConfigFormatter ("yaml") none = Fm.Formatter.defaultFormatter :=
  ⟨c7_parse_and_format_fallbacks.1 ("Warn") ("WARN") (by decide),
   c7_parse_and_format_fallbacks.2.1 ("bogus") (by decide),
   c7_parse_and_format_fallbacks.2.2 ("yaml") none (by decide) (by decide)⟩

/-- C8: parsing the canonical upper-case rendering of each of the five
levels yields the level back. -/
theorem c8_level_name_roundtrip :
    parseLogLevel (logLevelToString DEBUG) = DEBUG
    ∧ parseLogLevel (logLevelToString INFO) = INFO
    ∧ parseLogLevel (logLevelToString WARN) = WARN
    ∧ parseLogLevel (logLevelToString ERROR) = ERROR
    ∧ parseLogLevel (logLevelToString FATAL) = FATAL := by
  refine ⟨?_, ?_, ?_, ?_, ?_⟩ <;> decide

/-- C9: no logging call mutates the Logger: the shared routine at a
non-FATAL level (so the call returns) and the Debug/Info/Warn/Error
methods leave the state exactly as it was, and each setter replaces
exactly its own field. -/
theorem c9_logging_preserves_state :
    ∀ (l : Fm.Logger) (stack : List Frame) (now : DateTime) (msg : String) (level : LogLevel),
      level ≠ FATAL →
        ((Fm.Logger.log l stack now level msg).1 = l)
        ∧ ((Fm.Logger.Debug l stack now msg).1 = l)
        ∧ ((Fm.Logger.Info l stack now msg).1 = l)
        ∧ ((Fm.Logger.Warn l stack now msg).1 = l)
        ∧ ((Fm.Logger.Error l stack now msg).1 = l)
        ∧ (∀ v : LogLevel, (Fm.Logger.SetLevel l v).level = v
            ∧ (Fm.Logger.SetLevel l v).output = l.output
            ∧ (Fm.Logger.SetLevel l v).formatter = l.formatter)
        ∧ (∀ o : Nat, (Fm.Logger.SetOutput l o).output = o
            ∧ (Fm.Logger.SetOutput l o).level = l.level
            ∧ (Fm.Logger.SetOutput l o).formatter = l.formatter)
        ∧ (∀ f : Fm.Formatter, (Fm.Logger.SetFormatter l f).formatter = f
            ∧ (Fm.Logger.SetFormatter l f).level = l.level
            ∧ (Fm.Logger.SetFormatter l f).output = l.output) := by
  intro l stack now msg level _
  refine ⟨fm_log_fst l stack now level msg,
    fm_log_fst l ((v1File, 134) :: stack) now DEBUG msg,
    fm_log_fst l ((v1File, 139) :: stack) now INFO msg,
    fm_log_fst l ((v1File, 144) :: stack) now WARN msg,
    fm_log_fst l ((v1File, 149) :: stack) now ERROR msg,
    fun v => ⟨rfl, rfl, rfl⟩, fun o => ⟨rfl, rfl, rfl⟩, fun f => ⟨rfl, rfl, rfl⟩⟩

/-- Witness for C9 at a concrete logger and an ERROR-level call. -/
theorem c9_logging_preserves_state_witness :
    ((Fm.Logger.log (Fm.NewLogger 3 WARN .defaultFormatter) appStack0 now0 ERROR ("m")).1
      = Fm.NewLogger 3 WARN .defaultFormatter)
    ∧ (Fm.Logger.SetLevel (Fm.NewLogger 3 WARN .defaultFormatter) DEBUG).level = DEBUG := by
  have h := c9_logging_preserves_state (Fm.NewLogger 3 WARN .defaultFormatter)
    appStack0 now0 ("m") ERROR (by decide)
  exact ⟨h.1, (h.2.2.2.2.2.1 DEBUG).1⟩

/-- The documented configuration-file shape: a level given as a string
name (as the repository's own example shows) and a format. Decoding the
level member into the int-typed Level field is a type error; the format
member still decodes. -/
def badConfigJson : Jv :=
  Jv.obj [(("level"), Jv.str ("DEBUG")), (("format"), Jv.str ("json"))]

/-- C10 counterexample: the claim asserts that on any decode failure the
returned configuration equals the defaults. Decoding the documented
file shape fails (string into the int level field) - the error is
reported - but the format field has been applied, so the returned
configuration differs from the defaults. -/
theorem c10_counterexample_partial_decode :
    ((LoadConfigFromFile (some (.ok badConfigJson))).2 = true)
    ∧ (LoadConfigFromFile (some (.ok badConfigJson))).1 ≠ DefaultConfig := by
  refine ⟨?_, ?_⟩ <;> decide

/-- C10 amended: when the file cannot be opened, or reading its contents
fails before a value is decoded (a syntax error), LoadConfigFromFile
returns the defaults together with the error; when a value is read, it
is decoded best-effort over the defaults, so on a decode (type) error
the caller receives the defaults overridden by the successfully decoded
fields - a usable configuration, but not necessarily the defaults. -/
theorem c10_load_config_amended :
    (LoadConfigFromFile none = (DefaultConfig, true))
    ∧ (LoadConfigFromFile (some (.error ())) = (DefaultConfig, true))
    ∧ (∀ v : Jv, LoadConfigFromFile (some (.ok v)) = decodeLoggerConfig DefaultConfig v) :=
  ⟨rfl, rfl, fun _ => rfl⟩
